import Mathlib

/-!
Verification of the Meethub recommendation subsystem.

This file embeds, in Lean 4, the recommendation core of the Meethub backend:
the pure scoring helpers (`core/recommendation/scoring_utils.py`), the
four-layer recommendation engine (`core/recommendation/recommendation_engine.py`),
the collaborative-filtering data queries (`dao/recommendation_dao.py`) and the
router-side post-processing (`routers/recommendations.py`).

Modelling conventions:
* Python floats are modelled as exact rationals (`ℚ`); `round(x, n)` is Python's
  banker's rounding, modelled exactly on `ℚ`.  The single place where genuinely
  irrational arithmetic occurs (`math.sqrt` in the cosine similarity) is
  modelled over `ℝ`.
* Python dicts with string keys are modelled as association lists
  `List (String × ℚ)` iterated in insertion order; Python sets of ids/tags are
  modelled as `Finset`.
* Timestamps are naive datetimes modelled as integer second counts;
  `timedelta.days` is flooring division by 86400.
* Database state is a read-only environment record `Env`; the exponential
  freshness decay `0.5 ^ (days / half_life)` is real-valued and no claim
  depends on its numeric value, so it enters the pipeline as the
  environment-supplied per-activity score `freshnessOf`.
* `random.uniform(-f, f)` draws are modelled as an arbitrary stream
  `u : ℕ → ℚ` of coefficients, one per list position.
-/

namespace Meethub

/-! ### Rounding (Python `round`, banker's rounding, exact on `ℚ`) -/

/-- Python's `round` to an integer: round half to even. -/
def roundHalfEven (q : ℚ) : ℤ :=
  if q - ⌊q⌋ < 1/2 then ⌊q⌋
  else if 1/2 < q - ⌊q⌋ then ⌊q⌋ + 1
  else if ⌊q⌋ % 2 = 0 then ⌊q⌋ else ⌊q⌋ + 1

/-- Python's `round(x, 2)`. -/
def round2 (q : ℚ) : ℚ := (roundHalfEven (q * 100) : ℚ) / 100

/-- Python's `round(x, 3)`. -/
def round3 (q : ℚ) : ℚ := (roundHalfEven (q * 1000) : ℚ) / 1000

theorem roundHalfEven_bounds (q : ℚ) :
    q - 1/2 ≤ (roundHalfEven q : ℚ) ∧ (roundHalfEven q : ℚ) ≤ q + 1/2 := by
  have h0 : (⌊q⌋ : ℚ) ≤ q := Int.floor_le q
  have h1 : q < ⌊q⌋ + 1 := Int.lt_floor_add_one q
  unfold roundHalfEven
  split_ifs with hf hg he <;>
    constructor <;> push_cast <;> linarith

theorem round2_bounds (q : ℚ) :
    q - 1/200 ≤ round2 q ∧ round2 q ≤ q + 1/200 := by
  obtain ⟨hl, hr⟩ := roundHalfEven_bounds (q * 100)
  unfold round2
  constructor <;> [linarith; linarith]

/-! Evaluation lemmas for the rounding functions on concrete arguments
(the kernel cannot reduce `ℚ` arithmetic, so concrete instances are
established through these). -/

theorem roundHalfEven_eq_low (q : ℚ) (n : ℤ) (h1 : (n : ℚ) ≤ q) (h2 : q < (n : ℚ) + 1/2) :
    roundHalfEven q = n := by
  have hf : ⌊q⌋ = n := Int.floor_eq_iff.mpr ⟨h1, by linarith⟩
  unfold roundHalfEven
  rw [hf, if_pos (by push_cast; linarith)]

theorem roundHalfEven_eq_high (q : ℚ) (n : ℤ) (h1 : (n : ℚ) + 1/2 < q) (h2 : q < (n : ℚ) + 1) :
    roundHalfEven q = n + 1 := by
  have hf : ⌊q⌋ = n := Int.floor_eq_iff.mpr ⟨by linarith, by push_cast; linarith⟩
  unfold roundHalfEven
  rw [hf, if_neg (by push_cast; linarith), if_pos (by push_cast; linarith)]

theorem roundHalfEven_intCast (n : ℤ) : roundHalfEven (n : ℚ) = n :=
  roundHalfEven_eq_low _ n le_rfl (by linarith)

theorem roundHalfEven_half_even (n : ℤ) (h : n % 2 = 0) :
    roundHalfEven ((n : ℚ) + 1/2) = n := by
  have hf : ⌊(n : ℚ) + 1/2⌋ = n := Int.floor_eq_iff.mpr ⟨by linarith, by push_cast; linarith⟩
  unfold roundHalfEven
  rw [hf, if_neg (by push_cast; linarith), if_neg (by push_cast; linarith), if_pos h]

theorem roundHalfEven_half_odd (n : ℤ) (h : ¬ n % 2 = 0) :
    roundHalfEven ((n : ℚ) + 1/2) = n + 1 := by
  have hf : ⌊(n : ℚ) + 1/2⌋ = n := Int.floor_eq_iff.mpr ⟨by linarith, by push_cast; linarith⟩
  unfold roundHalfEven
  rw [hf, if_neg (by push_cast; linarith), if_neg (by push_cast; linarith), if_neg h]

/-- `round2` is the identity on values with an exact 2-decimal representation. -/
theorem round2_fix (q : ℚ) (n : ℤ) (h : q * 100 = (n : ℚ)) : round2 q = q := by
  unfold round2
  rw [h, roundHalfEven_intCast]
  linarith

/-- `round3` is the identity on values with an exact 3-decimal representation. -/
theorem round3_fix (q : ℚ) (n : ℤ) (h : q * 1000 = (n : ℚ)) : round3 q = q := by
  unfold round3
  rw [h, roundHalfEven_intCast]
  linarith

/-! ### ScoringUtils (`core/recommendation/scoring_utils.py`) -/

/-- `ScoringUtils.calculate_tag_match_score`: Jaccard similarity of the user's
tags against `activity_tags ∪ activity_categories`, scaled to 0-100 and rounded
to 2 decimals; 0 when the user's tags or the activity features are empty. -/
def calculate_tag_match_score (user_tags activity_tags activity_categories : Finset String) : ℚ :=
  if user_tags = ∅ then 0
  else
    let all_activity_features := activity_tags ∪ activity_categories
    if all_activity_features = ∅ then 0
    else
      let intersection : ℕ := (user_tags ∩ all_activity_features).card
      let union : ℕ := (user_tags ∪ all_activity_features).card
      let jaccard_similarity : ℚ := if 0 < union then (intersection : ℚ) / union else 0
      round2 (jaccard_similarity * 100)

/-- `ScoringUtils.calculate_hotness_score`: weighted blend of normalized views,
registration ratio and rating, rounded to 2 decimals. -/
def calculate_hotness_score (views_count : ℕ) (registration_ratio average_rating : ℚ)
    (views_weight registration_weight rating_weight : ℚ) (max_views : ℕ) : ℚ :=
  let views_score := min ((views_count : ℚ) / max_views) 1 * 100
  let registration_score := min registration_ratio 1 * 100
  let rating_score := average_rating / 5 * 100
  round2 (views_score * views_weight + registration_score * registration_weight +
    rating_score * rating_weight)

/-- `ScoringUtils.grade_match_score`: 100 on exact membership, 50 when either
input is missing, 0 otherwise. -/
def grade_match_score (user_grade : String) (target_grades : List String) : ℚ :=
  if user_grade = "" ∨ target_grades = [] then 50
  else if user_grade ∈ target_grades then 100
  else 0

/-- `ScoringUtils.time_proximity_score` (timestamps in seconds, naive):
0 for started activities, linear ramp from 100 down to 0 inside `days_ahead`
days, flat 20 beyond it; rounded to 2 decimals. -/
def time_proximity_score (activity_start_time now : ℤ) (days_ahead : ℤ) : ℚ :=
  if activity_start_time ≤ now then 0
  else
    let days_diff : ℤ := (activity_start_time - now).fdiv 86400
    let score : ℚ :=
      if days_diff ≤ days_ahead then (1 - (days_diff : ℚ) / (days_ahead : ℚ)) * 100
      else 20
    round2 (max 0 score)

/-- Python `dict.get(key, 0.0)` on an association list. -/
def lookupD (d : List (String × ℚ)) (key : String) : ℚ :=
  match d with
  | [] => 0
  | (k, v) :: rest => if key = k then v else lookupD rest key

/-- `ScoringUtils.weighted_fusion` over association-list dicts: sum of
`score * weights.get(key, 0)` over the score entries; 0 when either dict is
empty or the total weight is non-positive; divided by the total weight when
`normalize` is set and the total weight differs from 1; rounded to 2 decimals. -/
def weighted_fusion (scores weights : List (String × ℚ)) (normalize : Bool) : ℚ :=
  if scores = [] ∨ weights = [] then 0
  else
    let total_weight := (weights.map Prod.snd).sum
    if total_weight ≤ 0 then 0
    else
      let total_score := (scores.map (fun p => p.2 * lookupD weights p.1)).sum
      let final_score := if normalize ∧ total_weight ≠ 1 then total_score / total_weight
        else total_score
      round2 final_score

example : grade_match_score "" [] = 50 := by simp [grade_match_score]

example : calculate_tag_match_score {"music", "coding"} {"music"} ∅ = 50 := by
  unfold calculate_tag_match_score
  rw [if_neg (by decide), if_neg (by decide),
    show ({"music", "coding"} : Finset String) ∩ ({"music"} ∪ ∅) = {"music"} from by decide,
    show ({"music", "coding"} : Finset String) ∪ ({"music"} ∪ ∅) = {"music", "coding"} from by
      decide,
    show ({"music"} : Finset String).card = 1 from by decide,
    show ({"music", "coding"} : Finset String).card = 2 from by decide]
  simp only []
  rw [if_pos (by norm_num), round2_fix _ 5000 (by norm_num)]
  norm_num

/-! ### Stable sorting (Python `list.sort(key=..., reverse=True)`) -/

/-- Python's stable `list.sort(key=f, reverse=True)`: stable sort descending by
the rational key `f`. -/
def sortByDesc {α : Type} (f : α → ℚ) (l : List α) : List α :=
  List.insertionSort (fun a b => f b ≤ f a) l

theorem sortByDesc_perm {α : Type} (f : α → ℚ) (l : List α) : (sortByDesc f l).Perm l :=
  List.perm_insertionSort _ l

theorem sortByDesc_sorted {α : Type} (f : α → ℚ) (l : List α) :
    (sortByDesc f l).Sorted (fun a b => f b ≤ f a) := by
  haveI h1 : IsTotal α (fun a b => f b ≤ f a) := ⟨fun a b => le_total (f b) (f a)⟩
  haveI h2 : IsTrans α (fun a b => f b ≤ f a) := ⟨fun _ _ _ h h2 => le_trans h2 h⟩
  exact List.sorted_insertionSort _ l

/-! ### Data model

The entities the recommendation core reads.  Fields kept are exactly those the
embedded code paths touch; `target_audience` is flattened into its two lists
(`Targeted_people`, `Activity_class`). -/

/-- One row of `Activities` as the engine sees it. -/
structure Activity where
  id : ℤ
  title : String
  description : String
  status : String
  start_time : ℤ
  tags : List String
  targeted_people : List String
  activity_classes : List String
  max_participants : ℤ
  current_participants : ℤ
  views_count : ℕ
deriving DecidableEq

/-- The part of a `Users` row the engine reads (`profile_attributes`,
with `grade` and `hobby` extracted with empty defaults). -/
structure UserRec where
  profile_grade : String
  profile_hobby : List String
deriving DecidableEq

/-- Per-activity engagement statistics (`get_activities_engagement_stats`). -/
structure Stats where
  views : ℕ
  registrations : ℕ
  average_rating : ℚ
deriving DecidableEq

/-- Read-only database environment.  `viewedLogs`/`registeredLogs` are the
(deduplicated) id lists returned by `get_user_viewed_activities` /
`get_user_registered_activities`; `activities` is the result of
`get_all_recommendable_activities(None)`; `lookupActivity` is
`Activities.get_or_none`; `allUserIds` enumerates the `Users` table;
`freshnessOf` is the per-activity result of
`ScoringUtils.calculate_time_decay_score` (real-valued exponential decay,
supplied by the environment since no claim depends on its numeric value). -/
structure Env where
  users : ℤ → Option UserRec
  viewedLogs : ℤ → List ℤ
  registeredLogs : ℤ → List ℤ
  activities : List Activity
  lookupActivity : ℤ → Option Activity
  stats : ℤ → Stats
  allUserIds : List ℤ
  freshnessOf : ℤ → ℚ
  now : ℤ

/-- `set(viewed + registered)` for one user. -/
def engagedSet (env : Env) (user_id : ℤ) : Finset ℤ :=
  (env.viewedLogs user_id ++ env.registeredLogs user_id).toFinset

/-- Intermediate per-candidate record of the engine (the dict that accumulates
`content_match_score`, `is_viewed_or_registered`, `hotness_score`,
`freshness_score` as the layers run; scores not yet computed are 0). -/
structure ScoredItem where
  activity : Activity
  content_match_score : ℚ
  is_viewed_or_registered : Bool
  hotness_score : ℚ
  freshness_score : ℚ
deriving DecidableEq

/-- `score_breakdown` of a synthesized recommendation. -/
structure Breakdown where
  content_match : ℚ
  hotness : ℚ
  collaborative : ℚ
  freshness : ℚ
deriving DecidableEq

/-- One synthesized recommendation record (the dict built in
`_synthesize_scores`; representative subset of the activity fields). -/
structure Rec where
  activity_id : ℤ
  title : String
  description : String
  status : String
  start_time : ℤ
  max_participants : ℤ
  current_participants : ℤ
  recommendation_score : ℚ
  reasons : List String
  score_breakdown : Breakdown
deriving DecidableEq

/-- One entry of `get_similar_users`. -/
structure SimilarUser where
  user_id : ℤ
  similarity : ℚ
  common_activities_count : ℕ
deriving DecidableEq

/-- A Python dict `{activity_id: score}`: its key set plus a value function
(values outside `keys` are irrelevant). -/
structure ScoreMap where
  keys : Finset ℤ
  val : ℤ → ℚ

/-- `dict.get(activity_id, 0.0)`. -/
def ScoreMap.get (m : ScoreMap) (a : ℤ) : ℚ :=
  if a ∈ m.keys then m.val a else 0

/-- `max(d.values())` (0 on an empty dict, unused there). -/
def ScoreMap.maxVal (m : ScoreMap) : ℚ :=
  if h : m.keys.Nonempty then m.keys.sup' h m.val else 0

/-! ### RecommendationDAO — collaborative filtering
(`dao/recommendation_dao.py`) -/

/-- `RecommendationDAO.get_similar_users`: every other user whose engaged set
shares at least `min_common_activities` activities with the target user's,
with the Jaccard similarity of the two engaged sets rounded to 3 decimals,
sorted descending by similarity and capped at `limit`. -/
def get_similar_users (env : Env) (user_id : ℤ) (min_common_activities : ℕ) (limit : ℕ) :
    List SimilarUser :=
  let user_activities := engagedSet env user_id
  if user_activities = ∅ then []
  else
    let candidates := (env.allUserIds.filter (fun o => o ≠ user_id)).filterMap (fun o =>
      let other_activities := engagedSet env o
      let common_count := (user_activities ∩ other_activities).card
      if min_common_activities ≤ common_count then
        let union_count := (user_activities ∪ other_activities).card
        let similarity := if 0 < union_count then (common_count : ℚ) / union_count else 0
        some ⟨o, round3 similarity, common_count⟩
      else none)
    (sortByDesc (fun s => s.similarity) candidates).take limit

/-- One iteration of the `for similar_user in similar_users` loop of
`get_activities_from_similar_users`: the inner
`for activity_id in new_activities` loop adds the user's similarity weight to
every activity of theirs the target user has not engaged with (performed
set-wise on the dict model, which is order-independent). -/
def collabFoldStep (env : Env) (user_activities : Finset ℤ) (m : ScoreMap)
    (su : SimilarUser) : ScoreMap :=
  let new_activities := engagedSet env su.user_id \ user_activities
  ⟨m.keys ∪ new_activities,
    fun a => if a ∈ new_activities then m.val a + su.similarity else m.val a⟩

/-- `RecommendationDAO.get_activities_from_similar_users`: fold over the
selected similar users, accumulating similarity weights per activity. -/
def get_activities_from_similar_users (env : Env) (user_id : ℤ) (similar_users_limit : ℕ) :
    ScoreMap :=
  let similar_users := get_similar_users env user_id 2 similar_users_limit
  if similar_users = [] then ⟨∅, fun _ => 0⟩
  else similar_users.foldl (collabFoldStep env (engagedSet env user_id)) ⟨∅, fun _ => 0⟩

/-! ### RecommendationEngine (`core/recommendation/recommendation_engine.py`) -/

/-- `RecommendationEngine._calculate_content_match`: fuse grade match, tag
match and time proximity with fixed weights `{grade: 0.25, tags: 0.50,
time: 0.25}`. -/
def calculate_content_match (activity : Activity) (user_profile : UserRec) (now : ℤ) : ℚ :=
  let grade_score := grade_match_score user_profile.profile_grade activity.targeted_people
  let tag_score := calculate_tag_match_score user_profile.profile_hobby.toFinset
    activity.tags.toFinset activity.activity_classes.toFinset
  let time_score := time_proximity_score activity.start_time now 30
  weighted_fusion [("grade", grade_score), ("tags", tag_score), ("time", time_score)]
    [("grade", 1/4), ("tags", 1/2), ("time", 1/4)] true

/-- `RecommendationEngine._layer_content_filter`: keep the activities whose
content match reaches `match_threshold * 100`; halve the stored score of the
kept ones the user has already viewed or registered for. -/
def layer_content_filter (env : Env) (user_id : ℤ) (user : UserRec) (match_threshold : ℚ) :
    List ScoredItem :=
  let viewed_or_registered_ids := engagedSet env user_id
  env.activities.filterMap (fun activity =>
    let content_match := calculate_content_match activity user env.now
    if match_threshold * 100 ≤ content_match then
      let is_viewed_or_registered := activity.id ∈ viewed_or_registered_ids
      some ⟨activity,
        if is_viewed_or_registered then content_match * (1/2) else content_match,
        is_viewed_or_registered, 0, 0⟩
    else none)

/-- `RecommendationEngine._layer_hotness_ranking` with the default weight
config `{views: 0.3, registration: 0.4, rating: 0.3, max_views: 1000}`:
annotate each candidate with its hotness score, then sort descending by it. -/
def layer_hotness_ranking (env : Env) (items : List ScoredItem) : List ScoredItem :=
  sortByDesc (fun it => it.hotness_score) (items.map (fun it =>
    let st := env.stats it.activity.id
    let registration_ratio : ℚ :=
      if 0 < it.activity.max_participants then (st.registrations : ℚ) / it.activity.max_participants
      else 0
    { it with hotness_score := (calculate_hotness_score st.views registration_ratio
        st.average_rating (3/10) (4/10) (3/10) 1000) }))

/-- `RecommendationEngine._layer_collaborative_filtering`: fetch the similar
users' activity scores and min-max normalize them to 0-100 (unchanged when the
map is empty or its maximum is 0). -/
def layer_collaborative_filtering (env : Env) (user_id : ℤ) (similar_users_limit : ℕ) :
    ScoreMap :=
  let collaborative_scores := get_activities_from_similar_users env user_id similar_users_limit
  if collaborative_scores.keys = ∅ then collaborative_scores
  else if 0 < collaborative_scores.maxVal then
    ⟨collaborative_scores.keys,
      fun a => collaborative_scores.val a / collaborative_scores.maxVal * 100⟩
  else collaborative_scores

/-- `RecommendationEngine._layer_freshness_decay`: annotate each candidate with
its freshness score (environment-supplied value of
`calculate_time_decay_score`). -/
def layer_freshness_decay (env : Env) (items : List ScoredItem) : List ScoredItem :=
  items.map (fun it => { it with freshness_score := env.freshnessOf it.activity.id })

/-- `RecommendationEngine._generate_reasons`. -/
def generate_reasons (content_filter hotness collaborative freshness : ℚ) : List String :=
  let reasons :=
    (if 70 < content_filter then ["符合你的兴趣爱好"] else []) ++
    (if 65 < hotness then ["热门活动，评价不错"] else []) ++
    (if 70 < freshness then ["最新发布的活动"] else []) ++
    (if 30 < collaborative then ["与你有相同兴趣的用户也感兴趣"] else [])
  if reasons = [] then ["值得一试的活动"] else reasons

/-- The record `_synthesize_scores` builds for one candidate. -/
def synthesizeRecord (it : ScoredItem) (collaborative_scores : ScoreMap)
    (layer_weights : List (String × ℚ)) : Rec :=
  let collab_score := collaborative_scores.get it.activity.id
  let scores := [("content_filter", it.content_match_score), ("hotness", it.hotness_score),
    ("collaborative", collab_score), ("freshness", it.freshness_score)]
  { activity_id := it.activity.id
    title := it.activity.title
    description := it.activity.description
    status := it.activity.status
    start_time := it.activity.start_time
    max_participants := it.activity.max_participants
    current_participants := it.activity.current_participants
    recommendation_score := weighted_fusion scores layer_weights true
    reasons := generate_reasons it.content_match_score it.hotness_score collab_score
      it.freshness_score
    score_breakdown := ⟨it.content_match_score, it.hotness_score, collab_score,
      it.freshness_score⟩ }

/-- `RecommendationEngine._synthesize_scores`: build one record per candidate,
sort descending by the fused score, return the top `count`. -/
def synthesize_scores (items : List ScoredItem) (collaborative_scores : ScoreMap)
    (layer_weights : List (String × ℚ)) (count : ℕ) : List Rec :=
  (sortByDesc (fun r => r.recommendation_score)
    (items.map (fun it => synthesizeRecord it collaborative_scores layer_weights))).take count

/-- Default layer weights of `recommend_activities`. -/
def defaultLayerWeights : List (String × ℚ) :=
  [("content_filter", 35/100), ("hotness", 20/100), ("collaborative", 25/100),
    ("freshness", 20/100)]

/-- `RecommendationEngine.recommend_activities`: returns `[]` for an unknown
user, runs the four layers, synthesizes and returns the top `count` records. -/
def recommend_activities (env : Env) (user_id : ℤ) (count : ℕ)
    (layer_weights : List (String × ℚ)) (content_match_threshold : ℚ)
    (collaborative_users_limit : ℕ) : List Rec :=
  match env.users user_id with
  | none => []
  | some user =>
    let content_filtered := layer_content_filter env user_id user content_match_threshold
    if content_filtered = [] then []
    else
      let hotness_scored := layer_hotness_ranking env content_filtered
      let collaborative_scores := layer_collaborative_filtering env user_id
        collaborative_users_limit
      let freshness_scored := layer_freshness_decay env hotness_scored
      synthesize_scores freshness_scored collaborative_scores layer_weights count

/-! ### Router post-processing (`routers/recommendations.py`) -/

/-- Whether `Activities.get_or_none(id)` finds an activity whose status is
`'ended'` (the `activity and activity.status == 'ended'` check). -/
def statusEnded (env : Env) (activity_id : ℤ) : Bool :=
  match env.lookupActivity activity_id with
  | some activity => activity.status = "ended"
  | none => false

/-- Penalty factor `_filter_recommendations` applies to one record: `0.7` per
matching condition, stacking to `0.49`. -/
def penaltyFactor (env : Env) (user_id : ℤ) (exclude_viewed exclude_registered : Bool)
    (activity_id : ℤ) : ℚ :=
  (if exclude_viewed ∧ activity_id ∈ (env.viewedLogs user_id).toFinset then 7/10 else 1) *
    (if exclude_registered ∧ activity_id ∈ (env.registeredLogs user_id).toFinset then 7/10 else 1)

/-- `_filter_recommendations`: drop records whose activity has ended (only when
`exclude_ended` is set and the activity is found); down-weight, never drop,
already viewed/registered records. -/
def filter_recommendations (env : Env) (user_id : ℤ) (recommendations : List Rec)
    (exclude_viewed exclude_registered exclude_ended : Bool) : List Rec :=
  if recommendations = [] then []
  else
    recommendations.filterMap (fun r =>
      if exclude_ended ∧ statusEnded env r.activity_id then none
      else
        let penalty_factor := penaltyFactor env user_id exclude_viewed exclude_registered
          r.activity_id
        some (if penalty_factor < 1 then
          { r with recommendation_score := r.recommendation_score * penalty_factor }
        else r))

/-- The per-position noise application of `_add_randomness_to_scores`
(`u i` models the i-th draw of `random.uniform(-noise_factor, noise_factor)`). -/
def applyNoise (u : ℕ → ℚ) : ℕ → List Rec → List Rec
  | _, [] => []
  | i, r :: rest =>
    { r with recommendation_score :=
        round2 (max 0 (r.recommendation_score + u i * r.recommendation_score)) } ::
      applyNoise u (i + 1) rest

/-- `_add_randomness_to_scores`: perturb every score by its uniform noise,
clamp at 0, round to 2 decimals, and re-sort descending. -/
def add_randomness_to_scores (u : ℕ → ℚ) (recommendations : List Rec) : List Rec :=
  if recommendations = [] then recommendations
  else sortByDesc (fun r => r.recommendation_score) (applyNoise u 0 recommendations)

/-- The post-engine part of `get_recommendations_for_current_user`: optional
filtering plus re-sort, noise injection, truncation to `count`. -/
def router_postprocess (env : Env) (user_id : ℤ) (count : ℕ)
    (exclude_viewed exclude_registered exclude_ended : Bool) (u : ℕ → ℚ)
    (recommendations : List Rec) : List Rec :=
  let filtered :=
    if exclude_viewed || exclude_registered || exclude_ended then
      sortByDesc (fun r => r.recommendation_score)
        (filter_recommendations env user_id recommendations exclude_viewed exclude_registered
          exclude_ended)
    else recommendations
  (add_randomness_to_scores u filtered).take count

/-- `get_recommendations_for_current_user` down to the truncated list: engine
call with default parameters, then post-processing. -/
def router_for_me (env : Env) (user_id : ℤ) (count : ℕ)
    (exclude_viewed exclude_registered exclude_ended : Bool) (u : ℕ → ℚ) : List Rec :=
  router_postprocess env user_id count exclude_viewed exclude_registered exclude_ended u
    (recommend_activities env user_id count defaultLayerWeights (1/10) 5)

/-- The final response assembly: records whose activity is still found by
`Activities.get_or_none` (missing ones are skipped). -/
def router_response (env : Env) (user_id : ℤ) (count : ℕ)
    (exclude_viewed exclude_registered exclude_ended : Bool) (u : ℕ → ℚ) : List Rec :=
  (router_for_me env user_id count exclude_viewed exclude_registered exclude_ended u).filter
    (fun r => (env.lookupActivity r.activity_id).isSome)

/-! ## Helper lemmas -/

theorem filterMap_if {α β : Type} (p : α → Prop) [DecidablePred p] (g : α → β) (l : List α) :
    l.filterMap (fun a => if p a then some (g a) else none) =
      (l.filter (fun a => decide (p a))).map g := by
  induction l with
  | nil => rfl
  | cons a l ih =>
    by_cases h : p a
    · simp [List.filterMap_cons, List.filter_cons, h, ih]
    · simp [List.filterMap_cons, List.filter_cons, h, ih]

/-- The content-filter layer as a filter-then-map: keep exactly the activities
whose (un-halved) content match reaches the cutoff, then store the halved score
for already viewed/registered ones. -/
theorem layer_content_filter_eq (env : Env) (user_id : ℤ) (user : UserRec) (th : ℚ) :
    layer_content_filter env user_id user th =
      (env.activities.filter (fun a =>
          decide (th * 100 ≤ calculate_content_match a user env.now))).map
        (fun a => ⟨a,
          if a.id ∈ engagedSet env user_id then calculate_content_match a user env.now * (1/2)
          else calculate_content_match a user env.now,
          decide (a.id ∈ engagedSet env user_id), 0, 0⟩) :=
  filterMap_if (fun a => th * 100 ≤ calculate_content_match a user env.now) _ env.activities

/-! ## Claims -/

/-- Claim C2: Layer 1 computes, for every recommendable activity, a content
match score as the weighted fusion of grade match, tag match and time proximity
with fixed weights `{grade: 0.25, tags: 0.50, time: 0.25}`; it keeps exactly
the activities whose score is at least `contentMatchThreshold * 100`, and for
every kept activity that the user has already viewed or registered for it
stores half the computed score instead of excluding the activity. -/
theorem claim_C2 (env : Env) (user_id : ℤ) (user : UserRec) (th : ℚ) :
    layer_content_filter env user_id user th =
      (env.activities.filter (fun a =>
          decide (th * 100 ≤ calculate_content_match a user env.now))).map
        (fun a => ⟨a,
          if a.id ∈ engagedSet env user_id then calculate_content_match a user env.now * (1/2)
          else calculate_content_match a user env.now,
          decide (a.id ∈ engagedSet env user_id), 0, 0⟩) ∧
    ∀ a : Activity, calculate_content_match a user env.now =
      weighted_fusion
        [("grade", grade_match_score user.profile_grade a.targeted_people),
          ("tags", calculate_tag_match_score user.profile_hobby.toFinset a.tags.toFinset
            a.activity_classes.toFinset),
          ("time", time_proximity_score a.start_time env.now 30)]
        [("grade", 1/4), ("tags", 1/2), ("time", 1/4)] true :=
  ⟨layer_content_filter_eq env user_id user th, fun _ => rfl⟩

/-- Claim C8: for every user id for which no user exists, the engine's
recommend operation returns the empty list (a normal result, not an error). -/
theorem claim_C8 (env : Env) (user_id : ℤ) (count : ℕ) (layer_weights : List (String × ℚ))
    (content_match_threshold : ℚ) (collaborative_users_limit : ℕ)
    (h : env.users user_id = none) :
    recommend_activities env user_id count layer_weights content_match_threshold
      collaborative_users_limit = [] := by
  unfold recommend_activities
  rw [h]

/-- An environment with no users, no activities and no logs. -/
def envNone : Env :=
  { users := fun _ => none, viewedLogs := fun _ => [], registeredLogs := fun _ => [],
    activities := [], lookupActivity := fun _ => none, stats := fun _ => ⟨0, 0, 0⟩,
    allUserIds := [], freshnessOf := fun _ => 0, now := 0 }

theorem claim_C8_witness :
    envNone.users 42 = none ∧
      recommend_activities envNone 42 5 defaultLayerWeights (1/10) 5 = [] :=
  ⟨rfl, claim_C8 envNone 42 5 defaultLayerWeights (1/10) 5 rfl⟩

/-- Claim C5: with `exclude_ended = true`, no activity whose stored status is
`'ended'` appears in the filtered output, regardless of its score. -/
theorem claim_C5 (env : Env) (user_id : ℤ) (recs : List Rec) (ev er : Bool) (r : Rec)
    (hr : r ∈ filter_recommendations env user_id recs ev er true) :
    ∀ a : Activity, env.lookupActivity r.activity_id = some a → a.status ≠ "ended" := by
  intro a ha hstatus
  unfold filter_recommendations at hr
  by_cases hrecs : recs = []
  · rw [if_pos hrecs] at hr
    exact absurd hr (List.not_mem_nil r)
  · rw [if_neg hrecs] at hr
    obtain ⟨r₀, hr₀, hf⟩ := List.mem_filterMap.mp hr
    have hse : ¬ statusEnded env r₀.activity_id = true := by
      intro hcontra
      rw [if_pos ⟨rfl, hcontra⟩] at hf
      cases hf
    rw [if_neg (fun hand => hse hand.2)] at hf
    have hinj := Option.some.inj hf
    have hid : r.activity_id = r₀.activity_id := by
      split_ifs at hinj <;> rw [← hinj]
    apply hse
    unfold statusEnded
    rw [← hid, ha]
    simp [hstatus]

def rec0 : Rec :=
  { activity_id := 1, title := "t", description := "", status := "published", start_time := 0,
    max_participants := 0, current_participants := 0, recommendation_score := 0,
    reasons := [], score_breakdown := ⟨0, 0, 0, 0⟩ }

theorem claim_C5_witness :
    rec0 ∈ filter_recommendations envNone 1 [rec0] false false true ∧
      ∀ a : Activity, envNone.lookupActivity rec0.activity_id = some a → a.status ≠ "ended" := by
  have hmem : rec0 ∈ filter_recommendations envNone 1 [rec0] false false true := by
    unfold filter_recommendations
    rw [if_neg (by simp)]
    apply List.mem_filterMap.mpr
    refine ⟨rec0, by simp, ?_⟩
    rw [if_neg (by simp [statusEnded, envNone])]
    simp only []
    rw [if_neg (by simp [penaltyFactor])]
  exact ⟨hmem, claim_C5 envNone 1 [rec0] false false rec0 hmem⟩

/-- Claim C4: when the exclude-viewed / exclude-registered flags are set, the
post-processor multiplies a record's composite score by 0.7 per matching
condition (0.49 when both match), and the penalized item stays in the adjusted
list rather than being dropped (the separate ended-activity filter aside). -/
theorem claim_C4 (env : Env) (user_id : ℤ) (recs : List Rec) (ev er ee : Bool) (r : Rec)
    (hr : r ∈ recs) (hne : ¬(ee = true ∧ statusEnded env r.activity_id = true)) :
    { r with recommendation_score :=
        r.recommendation_score * penaltyFactor env user_id ev er r.activity_id } ∈
      filter_recommendations env user_id recs ev er ee ∧
    (ev = true → er = true → r.activity_id ∈ (env.viewedLogs user_id).toFinset →
      r.activity_id ∈ (env.registeredLogs user_id).toFinset →
      penaltyFactor env user_id ev er r.activity_id = 49/100) := by
  constructor
  · unfold filter_recommendations
    rw [if_neg (List.ne_nil_of_mem hr)]
    apply List.mem_filterMap.mpr
    refine ⟨r, hr, ?_⟩
    rw [if_neg hne]
    simp only []
    unfold penaltyFactor
    by_cases h1 : ev = true ∧ r.activity_id ∈ (env.viewedLogs user_id).toFinset
    · by_cases h2 : er = true ∧ r.activity_id ∈ (env.registeredLogs user_id).toFinset
      · rw [if_pos h1, if_pos h2, if_pos (show (7:ℚ)/10 * (7/10) < 1 by norm_num)]
      · rw [if_pos h1, if_neg h2, if_pos (show (7:ℚ)/10 * 1 < 1 by norm_num)]
    · by_cases h2 : er = true ∧ r.activity_id ∈ (env.registeredLogs user_id).toFinset
      · rw [if_neg h1, if_pos h2, if_pos (show (1:ℚ) * (7/10) < 1 by norm_num)]
      · rw [if_neg h1, if_neg h2, if_neg (show ¬ ((1:ℚ) * 1 < 1) by norm_num)]
        rw [show r.recommendation_score * ((1:ℚ) * 1) = r.recommendation_score from by ring]
  · intro hev her hv hreg
    unfold penaltyFactor
    rw [if_pos ⟨hev, hv⟩, if_pos ⟨her, hreg⟩]
    norm_num

/-- All fields of a recommendation record other than `recommendation_score`
agree. -/
def agreesExceptScore (r' r : Rec) : Prop :=
  r'.activity_id = r.activity_id ∧ r'.title = r.title ∧ r'.description = r.description ∧
    r'.status = r.status ∧ r'.start_time = r.start_time ∧
    r'.max_participants = r.max_participants ∧
    r'.current_participants = r.current_participants ∧ r'.reasons = r.reasons ∧
    r'.score_breakdown = r.score_breakdown

theorem agreesExceptScore_trans {a b c : Rec} (h1 : agreesExceptScore a b)
    (h2 : agreesExceptScore b c) : agreesExceptScore a c := by
  obtain ⟨e1, e2, e3, e4, e5, e6, e7, e8, e9⟩ := h1
  obtain ⟨f1, f2, f3, f4, f5, f6, f7, f8, f9⟩ := h2
  exact ⟨e1.trans f1, e2.trans f2, e3.trans f3, e4.trans f4, e5.trans f5, e6.trans f6,
    e7.trans f7, e8.trans f8, e9.trans f9⟩

theorem applyNoise_mem (u : ℕ → ℚ) :
    ∀ (i : ℕ) (l : List Rec) (r' : Rec), r' ∈ applyNoise u i l →
      ∃ r ∈ l, agreesExceptScore r' r := by
  intro i l
  induction l generalizing i with
  | nil => intro r' h; exact absurd h (List.not_mem_nil r')
  | cons r rest ih =>
    intro r' h
    rcases List.mem_cons.mp h with h | h
    · exact ⟨r, List.mem_cons_self r rest, by rw [h]; exact ⟨rfl, rfl, rfl, rfl, rfl, rfl, rfl,
        rfl, rfl⟩⟩
    · obtain ⟨r₀, hr₀, hag⟩ := ih (i + 1) r' h
      exact ⟨r₀, List.mem_cons_of_mem r hr₀, hag⟩

theorem filter_recommendations_mem (env : Env) (user_id : ℤ) (recs : List Rec)
    (ev er ee : Bool) (r' : Rec) (h : r' ∈ filter_recommendations env user_id recs ev er ee) :
    ∃ r ∈ recs, agreesExceptScore r' r := by
  unfold filter_recommendations at h
  by_cases hrecs : recs = []
  · rw [if_pos hrecs] at h
    exact absurd h (List.not_mem_nil r')
  · rw [if_neg hrecs] at h
    obtain ⟨r, hr, hf⟩ := List.mem_filterMap.mp h
    refine ⟨r, hr, ?_⟩
    by_cases hse : ee = true ∧ statusEnded env r.activity_id = true
    · rw [if_pos hse] at hf
      cases hf
    · rw [if_neg hse] at hf
      simp only [] at hf
      have hinj := Option.some.inj hf
      split_ifs at hinj
      · rw [← hinj]
        exact ⟨rfl, rfl, rfl, rfl, rfl, rfl, rfl, rfl, rfl⟩
      · rw [← hinj]
        exact ⟨rfl, rfl, rfl, rfl, rfl, rfl, rfl, rfl, rfl⟩

/-- Claim C10: post-processing (penalty step and noise-injection step) changes
only `recommendation_score` — every output record agrees with some input record
on `activity_id`, `title`, `reasons`, `score_breakdown` and every other field,
so `score_breakdown` still holds the pre-noise, pre-penalty layer scores. -/
theorem claim_C10 (env : Env) (user_id : ℤ) (recs : List Rec) (ev er ee : Bool) (u : ℕ → ℚ)
    (r' : Rec)
    (h : r' ∈ add_randomness_to_scores u
      (filter_recommendations env user_id recs ev er ee)) :
    ∃ r ∈ recs, agreesExceptScore r' r := by
  unfold add_randomness_to_scores at h
  by_cases hl : filter_recommendations env user_id recs ev er ee = []
  · rw [if_pos hl, hl] at h
    exact absurd h (List.not_mem_nil r')
  · rw [if_neg hl] at h
    have h2 := ((sortByDesc_perm (fun r : Rec => r.recommendation_score) _).mem_iff).mp h
    obtain ⟨r₀, hr₀, hag₀⟩ := applyNoise_mem u 0 _ r' h2
    obtain ⟨r, hr, hag⟩ := filter_recommendations_mem env user_id recs ev er ee r₀ hr₀
    exact ⟨r, hr, agreesExceptScore_trans hag₀ hag⟩

theorem claim_C10_witness :
    rec0 ∈ add_randomness_to_scores (fun _ => 0)
        (filter_recommendations envNone 1 [rec0] false false false) ∧
      ∃ r ∈ [rec0], agreesExceptScore rec0 r := by
  have hfil : filter_recommendations envNone 1 [rec0] false false false = [rec0] := by
    unfold filter_recommendations
    rw [if_neg (by simp)]
    rw [show ([rec0] : List Rec).filterMap _ = _ from List.filterMap_cons _ rec0 []]
    rw [if_neg (by simp)]
    simp only [List.filterMap_nil]
    rw [if_neg (by simp [penaltyFactor])]
  have happ : applyNoise (fun _ => 0) 0 [rec0] = [rec0] := by
    unfold applyNoise
    have : round2 (max 0 (rec0.recommendation_score + 0 * rec0.recommendation_score)) =
        rec0.recommendation_score := by
      rw [show rec0.recommendation_score = 0 from rfl]
      rw [show max (0:ℚ) (0 + 0 * 0) = 0 from by norm_num]
      exact round2_fix 0 0 (by norm_num)
    rw [this]
    rfl
  have hmem : rec0 ∈ add_randomness_to_scores (fun _ => 0)
      (filter_recommendations envNone 1 [rec0] false false false) := by
    unfold add_randomness_to_scores
    rw [if_neg (by rw [hfil]; simp), hfil, happ]
    simp [sortByDesc]
  exact ⟨hmem, claim_C10 envNone 1 [rec0] false false false (fun _ => 0) rec0 hmem⟩

theorem collabFold_keys (env : Env) (own : Finset ℤ) :
    ∀ (l : List SimilarUser) (m₀ : ScoreMap),
      (l.foldl (collabFoldStep env own) m₀).keys =
        m₀.keys ∪ l.foldr (fun su acc => (engagedSet env su.user_id \ own) ∪ acc) ∅ := by
  intro l
  induction l with
  | nil => intro m₀; simp
  | cons su l ih =>
    intro m₀
    rw [List.foldl_cons, ih, List.foldr_cons]
    show (collabFoldStep env own m₀ su).keys ∪ _ = _
    simp only [collabFoldStep]
    rw [Finset.union_assoc]

theorem collabFold_val (env : Env) (own : Finset ℤ) :
    ∀ (l : List SimilarUser) (m₀ : ScoreMap) (a : ℤ),
      (l.foldl (collabFoldStep env own) m₀).val a =
        m₀.val a + ((l.filter (fun su => decide (a ∈ engagedSet env su.user_id \ own))).map
          (fun su => su.similarity)).sum := by
  intro l
  induction l with
  | nil => intro m₀ a; simp
  | cons su l ih =>
    intro m₀ a
    rw [List.foldl_cons, ih, List.filter_cons]
    by_cases ha : a ∈ engagedSet env su.user_id \ own
    · rw [if_pos (decide_eq_true ha), List.map_cons, List.sum_cons]
      show (if a ∈ engagedSet env su.user_id \ own then m₀.val a + su.similarity
        else m₀.val a) + _ = _
      rw [if_pos ha]
      ring
    · rw [if_neg (fun h => ha (of_decide_eq_true h))]
      show (if a ∈ engagedSet env su.user_id \ own then m₀.val a + su.similarity
        else m₀.val a) + _ = _
      rw [if_neg ha]

theorem foldrUnion_sdiff (env : Env) (own : Finset ℤ) :
    ∀ l : List SimilarUser,
      l.foldr (fun su acc => (engagedSet env su.user_id \ own) ∪ acc) ∅ =
        (l.foldr (fun su acc => engagedSet env su.user_id ∪ acc) ∅) \ own := by
  intro l
  induction l with
  | nil => simp
  | cons su l ih =>
    rw [List.foldr_cons, List.foldr_cons, ih, Finset.union_sdiff_distrib]

/-- Claim C3: the similar-users activity map has as keys exactly the activities
engaged by the selected similar users minus the target user's own engaged set;
each key scores the sum of the similarities of every selected similar user who
engaged with it; the engine's normalization divides by the maximum and scales
to 100, leaving the map unchanged when it is empty or its maximum is 0. -/
theorem claim_C3 (env : Env) (user_id : ℤ) (limit : ℕ) (a : ℤ) :
    (get_activities_from_similar_users env user_id limit).keys =
      ((get_similar_users env user_id 2 limit).foldr
        (fun su acc => engagedSet env su.user_id ∪ acc) ∅) \ engagedSet env user_id ∧
    (a ∈ (get_activities_from_similar_users env user_id limit).keys →
      (get_activities_from_similar_users env user_id limit).val a =
        (((get_similar_users env user_id 2 limit).filter
          (fun su => decide (a ∈ engagedSet env su.user_id))).map
            (fun su => su.similarity)).sum) ∧
    ((get_activities_from_similar_users env user_id limit).keys = ∅ →
      layer_collaborative_filtering env user_id limit =
        get_activities_from_similar_users env user_id limit) ∧
    ((get_activities_from_similar_users env user_id limit).maxVal = 0 →
      layer_collaborative_filtering env user_id limit =
        get_activities_from_similar_users env user_id limit) ∧
    (0 < (get_activities_from_similar_users env user_id limit).maxVal →
      (layer_collaborative_filtering env user_id limit).keys =
        (get_activities_from_similar_users env user_id limit).keys ∧
      ∀ b ∈ (get_activities_from_similar_users env user_id limit).keys,
        (layer_collaborative_filtering env user_id limit).val b =
          (get_activities_from_similar_users env user_id limit).val b /
            (get_activities_from_similar_users env user_id limit).maxVal * 100) := by
  have hkeys : (get_activities_from_similar_users env user_id limit).keys =
      ((get_similar_users env user_id 2 limit).foldr
        (fun su acc => engagedSet env su.user_id ∪ acc) ∅) \ engagedSet env user_id := by
    unfold get_activities_from_similar_users
    by_cases hs : get_similar_users env user_id 2 limit = []
    · rw [if_pos hs, hs]
      simp
    · rw [if_neg hs, collabFold_keys, foldrUnion_sdiff]
      exact Finset.empty_union _
  refine ⟨hkeys, ?_, ?_, ?_, ?_⟩
  · intro ha
    have hnotown : a ∉ engagedSet env user_id := by
      rw [hkeys] at ha
      exact (Finset.mem_sdiff.mp ha).2
    unfold get_activities_from_similar_users
    by_cases hs : get_similar_users env user_id 2 limit = []
    · rw [hkeys, hs] at ha
      simp at ha
    · rw [if_neg hs, collabFold_val, zero_add]
      have hfil : (get_similar_users env user_id 2 limit).filter
            (fun su => decide (a ∈ engagedSet env su.user_id \ engagedSet env user_id)) =
          (get_similar_users env user_id 2 limit).filter
            (fun su => decide (a ∈ engagedSet env su.user_id)) := by
        apply List.filter_congr
        intro su _
        apply decide_eq_decide.mpr
        constructor
        · exact fun h => (Finset.mem_sdiff.mp h).1
        · exact fun h => Finset.mem_sdiff.mpr ⟨h, hnotown⟩
      rw [hfil]
  · intro hk
    unfold layer_collaborative_filtering
    rw [if_pos hk]
  · intro hmax
    unfold layer_collaborative_filtering
    by_cases hk : (get_activities_from_similar_users env user_id limit).keys = ∅
    · rw [if_pos hk]
    · rw [if_neg hk, if_neg (by rw [hmax]; exact lt_irrefl 0)]
  · intro hpos
    have hk : ¬ (get_activities_from_similar_users env user_id limit).keys = ∅ := by
      intro hke
      rw [show (get_activities_from_similar_users env user_id limit).maxVal = 0 from by
        unfold ScoreMap.maxVal
        rw [dif_neg (by rw [hke]; exact Finset.not_nonempty_empty)]] at hpos
      exact lt_irrefl 0 hpos
    constructor
    · unfold layer_collaborative_filtering
      rw [if_neg hk, if_pos hpos]
    · intro b _
      unfold layer_collaborative_filtering
      rw [if_neg hk, if_pos hpos]

/-- Concrete environment for the collaborative-filtering witness: the target
user 1 engaged with activities 10 and 20; user 2 engaged with 10, 20 and 30
(2 common activities, Jaccard similarity 2/3). -/
def env3 : Env :=
  { users := fun _ => some ⟨"", []⟩,
    viewedLogs := fun uid => if uid = 1 then [10] else [10, 20, 30],
    registeredLogs := fun uid => if uid = 1 then [20] else [],
    activities := [], lookupActivity := fun _ => none, stats := fun _ => ⟨0, 0, 0⟩,
    allUserIds := [1, 2], freshnessOf := fun _ => 0, now := 0 }

theorem claim_C3_witness :
    (30 : ℤ) ∈ (get_activities_from_similar_users env3 1 5).keys ∧
      (get_activities_from_similar_users env3 1 5).val 30 =
        (((get_similar_users env3 1 2 5).filter
          (fun su => decide ((30 : ℤ) ∈ engagedSet env3 su.user_id))).map
            (fun su => su.similarity)).sum :=
  ⟨by decide, (claim_C3 env3 1 5 30).2.1 (by decide)⟩

/-- `weighted_fusion` when the weights sum to exactly 1: no renormalization,
just the rounded weighted sum. -/
theorem weighted_fusion_weightOne (scores weights : List (String × ℚ)) (hs : scores ≠ [])
    (hw : weights ≠ []) (hsum : (weights.map Prod.snd).sum = 1) :
    weighted_fusion scores weights true =
      round2 ((scores.map (fun p => p.2 * lookupD weights p.1)).sum) := by
  unfold weighted_fusion
  rw [if_neg (by simp [hs, hw])]
  simp only []
  rw [hsum, if_neg (by norm_num), if_neg (fun h => h.2 rfl)]

/-- Profile used by the C9 witness: grade `大一`, five hobby tags. -/
def user9 : UserRec := ⟨"大一", ["a", "b", "c", "d", "e"]⟩

/-- Activity used by the C9 witness: one matching tag out of five, wrong
grade, already started; its raw content match is exactly the default cutoff
10. -/
def act9 : Activity :=
  { id := 7, title := "t", description := "", status := "published", start_time := 0,
    tags := ["a"], targeted_people := ["大二"], activity_classes := [],
    max_participants := 10, current_participants := 0, views_count := 0 }

/-- Environment for C9: user 9 has already viewed activity 7. -/
def env9 : Env :=
  { users := fun _ => some user9, viewedLogs := fun _ => [7], registeredLogs := fun _ => [],
    activities := [act9], lookupActivity := fun _ => none, stats := fun _ => ⟨0, 0, 0⟩,
    allUserIds := [9], freshnessOf := fun _ => 0, now := 0 }

theorem content_match_act9 : calculate_content_match act9 user9 env9.now = 10 := by
  show calculate_content_match act9 user9 0 = 10
  unfold calculate_content_match act9 user9
  dsimp only
  have hg : grade_match_score "大一" ["大二"] = 0 := by
    unfold grade_match_score
    rw [if_neg (by simp), if_neg (by simp)]
  have ht : calculate_tag_match_score (["a", "b", "c", "d", "e"] : List String).toFinset
      (["a"] : List String).toFinset ([] : List String).toFinset = 20 := by
    unfold calculate_tag_match_score
    rw [if_neg (by decide), if_neg (by decide),
      show ((["a", "b", "c", "d", "e"] : List String).toFinset ∩
        ((["a"] : List String).toFinset ∪ ([] : List String).toFinset)).card = 1 from by decide,
      show ((["a", "b", "c", "d", "e"] : List String).toFinset ∪
        ((["a"] : List String).toFinset ∪ ([] : List String).toFinset)).card = 5 from by decide]
    simp only []
    rw [if_pos (by norm_num), round2_fix _ 2000 (by norm_num)]
    norm_num
  have htime : time_proximity_score 0 0 30 = 0 := by
    unfold time_proximity_score
    rw [if_pos le_rfl]
  rw [hg, ht, htime, weighted_fusion_weightOne _ _ (by simp) (by simp) (by simp; norm_num)]
  rw [show (List.map (fun p => p.2 * lookupD [("grade", (1:ℚ)/4), ("tags", 1/2), ("time", 1/4)]
      p.1) [("grade", (0:ℚ)), ("tags", 20), ("time", 0)]).sum = 10 from by
    simp [lookupD]; norm_num]
  rw [round2_fix _ 1000 (by norm_num)]

/-- Claim C9: the content-filter threshold compares the un-halved content
match score — an already viewed/registered activity is kept whenever its raw
score reaches the cutoff, so the candidate list can contain entries whose
stored (halved) `content_match_score` is strictly below the cutoff. -/
theorem claim_C9 :
    (∀ (env : Env) (user_id : ℤ) (user : UserRec) (th : ℚ) (a : Activity),
      a ∈ env.activities → a.id ∈ engagedSet env user_id →
      ((∃ it ∈ layer_content_filter env user_id user th, it.activity = a) ↔
        th * 100 ≤ calculate_content_match a user env.now)) ∧
    ∃ it ∈ layer_content_filter env9 9 user9 (1/10),
      it.content_match_score < (1/10) * 100 := by
  constructor
  · intro env user_id user th a ha _
    rw [layer_content_filter_eq]
    constructor
    · rintro ⟨it, hit, heq⟩
      obtain ⟨b, hb, hgb⟩ := List.mem_map.mp hit
      have hpb := of_decide_eq_true (List.mem_filter.mp hb).2
      have : b = a := by rw [← heq, ← hgb]
      rwa [← this]
    · intro hth
      refine ⟨_, List.mem_map.mpr ⟨a, List.mem_filter.mpr ⟨ha, decide_eq_true hth⟩, rfl⟩, rfl⟩
  · have hth : (1:ℚ)/10 * 100 ≤ calculate_content_match act9 user9 env9.now := by
      rw [content_match_act9]; norm_num
    refine ⟨⟨act9,
      if act9.id ∈ engagedSet env9 9 then calculate_content_match act9 user9 env9.now * (1/2)
      else calculate_content_match act9 user9 env9.now,
      decide (act9.id ∈ engagedSet env9 9), 0, 0⟩, ?_, ?_⟩
    · rw [layer_content_filter_eq]
      exact List.mem_map.mpr ⟨act9, List.mem_filter.mpr ⟨by simp [env9], decide_eq_true hth⟩,
        rfl⟩
    · show (if act9.id ∈ engagedSet env9 9 then calculate_content_match act9 user9 env9.now * (1/2)
        else calculate_content_match act9 user9 env9.now) < (1:ℚ)/10 * 100
      rw [if_pos (by decide), content_match_act9]
      norm_num

theorem claim_C9_witness :
    act9 ∈ env9.activities ∧ act9.id ∈ engagedSet env9 9 ∧
      ((∃ it ∈ layer_content_filter env9 9 user9 (1/10), it.activity = act9) ↔
        (1/10) * 100 ≤ calculate_content_match act9 user9 env9.now) :=
  ⟨by simp [env9], by decide, claim_C9.1 env9 9 user9 (1/10) act9 (by simp [env9]) (by decide)⟩

/-! ### Claim C6: `weighted_fusion` range -/

theorem lookupD_eq_zero (ws : List (String × ℚ)) (k : String) (h : k ∉ ws.map Prod.fst) :
    lookupD ws k = 0 := by
  induction ws with
  | nil => rfl
  | cons p ws ih =>
    simp only [List.map_cons, List.mem_cons] at h
    push_neg at h
    show (if k = p.1 then p.2 else lookupD ws k) = 0
    rw [if_neg h.1]
    exact ih h.2

theorem lookupD_nonneg (ws : List (String × ℚ)) (k : String) (h : ∀ p ∈ ws, 0 ≤ p.2) :
    0 ≤ lookupD ws k := by
  induction ws with
  | nil => exact le_refl 0
  | cons p ws ih =>
    show 0 ≤ if k = p.1 then p.2 else lookupD ws k
    split_ifs
    · exact h p (List.mem_cons_self p ws)
    · exact ih (fun q hq => h q (List.mem_cons_of_mem p hq))

/-- Summing `if key = k₀ then w₀ else g key` over an association list with
distinct keys containing `k₀` once, where `g k₀ = 0`. -/
theorem sum_if_single (l : List (String × ℚ)) (k₀ : String) (w₀ : ℚ) (g : String → ℚ)
    (hnd : (l.map Prod.fst).Nodup) (hk : k₀ ∈ l.map Prod.fst) (hg : g k₀ = 0) :
    (l.map (fun p => if p.1 = k₀ then w₀ else g p.1)).sum =
      w₀ + (l.map (fun p => g p.1)).sum := by
  induction l with
  | nil => simp at hk
  | cons p l ih =>
    rw [List.map_cons] at hnd hk
    have hnd' := List.nodup_cons.mp hnd
    by_cases hp : p.1 = k₀
    · have htail : ∀ q ∈ l, ¬ q.1 = k₀ := by
        intro q hq hq1
        exact hnd'.1 (by rw [hp, ← hq1]; exact List.mem_map_of_mem Prod.fst hq)
      rw [List.map_cons, List.sum_cons, if_pos hp,
        List.map_congr_left (fun q hq => if_neg (htail q hq)),
        List.map_cons, List.sum_cons, hp, hg]
      ring
    · have hk' : k₀ ∈ l.map Prod.fst := by
        simp only [List.mem_cons] at hk
        rcases hk with h | h
        · exact absurd h.symm hp
        · exact h
      rw [List.map_cons, List.sum_cons, if_neg hp, List.map_cons, List.sum_cons,
        ih hnd'.2 hk']
      ring

/-- Key-counting: with distinct keys on both dicts and every weight key present
among the score keys, summing the looked-up weights over the score entries
yields the total weight. -/
theorem lookupD_sum (ws l : List (String × ℚ)) (hndl : (l.map Prod.fst).Nodup)
    (hndw : (ws.map Prod.fst).Nodup) (hsub : ∀ p ∈ ws, p.1 ∈ l.map Prod.fst) :
    (l.map (fun p => lookupD ws p.1)).sum = (ws.map Prod.snd).sum := by
  induction ws with
  | nil =>
    rw [List.map_nil, List.sum_nil]
    apply List.sum_eq_zero
    intro x hx
    obtain ⟨p, _, hpx⟩ := List.mem_map.mp hx
    rw [← hpx]
    rfl
  | cons q ws ih =>
    rw [List.map_cons] at hndw
    have hndw' := List.nodup_cons.mp hndw
    have hq0 : lookupD ws q.1 = 0 := lookupD_eq_zero ws q.1 hndw'.1
    have hstep : l.map (fun p => lookupD (q :: ws) p.1) =
        l.map (fun p => if p.1 = q.1 then q.2 else lookupD ws p.1) := rfl
    rw [hstep, sum_if_single l q.1 q.2 (fun k => lookupD ws k) hndl
        (hsub q (List.mem_cons_self q ws)) hq0,
      List.map_cons, List.sum_cons,
      ih hndw'.2 (fun p hp => hsub p (List.mem_cons_of_mem q hp))]

/-- Claim C6, counterexample: as stated the claim fails three ways on the
code — (i) negative weights summing to 1 push the result below the minimum,
(ii) 2-decimal rounding leaves `[min, max]` for sub-cent scores, (iii) weight
keys absent from the scores dict count toward the weight sum but not the
score. -/
theorem claim_C6_counterexample :
    (weighted_fusion [("a", 0), ("b", 100)] [("a", 2), ("b", -1)] true = -100 ∧
      (([("a", (2:ℚ)), ("b", -1)]).map Prod.snd).sum = 1 ∧ ¬ ((0:ℚ) ≤ -100)) ∧
    (weighted_fusion [("a", 1/250)] [("a", 1)] true = 0 ∧ ¬ ((1:ℚ)/250 ≤ 0)) ∧
    (weighted_fusion [("a", 100)] [("a", 1/2), ("b", 1/2)] true = 50 ∧
      (([("a", (1:ℚ)/2), ("b", 1/2)]).map Prod.snd).sum = 1 ∧ ¬ ((100:ℚ) ≤ 50)) := by
  refine ⟨⟨?_, by norm_num, by norm_num⟩, ⟨?_, by norm_num⟩, ⟨?_, by norm_num, by norm_num⟩⟩
  · rw [weighted_fusion_weightOne _ _ (by simp) (by simp) (by norm_num),
      show (List.map (fun p => p.2 * lookupD [("a", (2:ℚ)), ("b", -1)] p.1)
        [("a", (0:ℚ)), ("b", 100)]).sum = -100 from by simp [lookupD]]
    rw [round2_fix _ (-10000) (by norm_num)]
  · rw [weighted_fusion_weightOne _ _ (by simp) (by simp) (by norm_num),
      show (List.map (fun p => p.2 * lookupD [("a", (1:ℚ))] p.1)
        [("a", (1:ℚ)/250)]).sum = 1/250 from by simp [lookupD]]
    unfold round2
    rw [roundHalfEven_eq_low _ 0 (by norm_num) (by norm_num)]
    norm_num
  · rw [weighted_fusion_weightOne _ _ (by simp) (by simp) (by norm_num),
      show (List.map (fun p => p.2 * lookupD [("a", (1:ℚ)/2), ("b", 1/2)] p.1)
        [("a", (100:ℚ))]).sum = 50 from by simp [lookupD]; norm_num]
    rw [round2_fix _ 5000 (by norm_num)]

/-- Claim C6, amended: for non-empty scores and weights dicts with distinct
keys, nonnegative weight values summing to exactly 1 and every weight key
present among the score keys, `weighted_fusion` with `normalize = true` stays
within `[min(scores) - 0.005, max(scores) + 0.005]` — the pre-rounding weighted
sum is a convex combination inside `[min, max]` and the returned value differs
from it only by rounding to two decimals. -/
theorem claim_C6_amended (scores weights : List (String × ℚ)) (m M : ℚ)
    (hs : scores ≠ []) (hw : weights ≠ [])
    (hnds : (scores.map Prod.fst).Nodup) (hndw : (weights.map Prod.fst).Nodup)
    (hpos : ∀ p ∈ weights, 0 ≤ p.2) (hsum : (weights.map Prod.snd).sum = 1)
    (hsub : ∀ p ∈ weights, p.1 ∈ scores.map Prod.fst)
    (hbounds : ∀ p ∈ scores, m ≤ p.2 ∧ p.2 ≤ M) :
    m - 1/200 ≤ weighted_fusion scores weights true ∧
      weighted_fusion scores weights true ≤ M + 1/200 := by
  rw [weighted_fusion_weightOne scores weights hs hw hsum]
  have hWsum : (scores.map (fun p => lookupD weights p.1)).sum = 1 := by
    rw [lookupD_sum weights scores hnds hndw hsub, hsum]
  have hTle : (scores.map (fun p => p.2 * lookupD weights p.1)).sum ≤ M := by
    have h1 : (scores.map (fun p => p.2 * lookupD weights p.1)).sum ≤
        (scores.map (fun p => M * lookupD weights p.1)).sum := by
      apply List.sum_le_sum
      intro p hp
      exact mul_le_mul_of_nonneg_right (hbounds p hp).2 (lookupD_nonneg weights p.1 hpos)
    have h2 : (scores.map (fun p => M * lookupD weights p.1)).sum = M := by
      rw [List.sum_map_mul_left, hWsum, mul_one]
    linarith
  have hTge : m ≤ (scores.map (fun p => p.2 * lookupD weights p.1)).sum := by
    have h1 : (scores.map (fun p => m * lookupD weights p.1)).sum ≤
        (scores.map (fun p => p.2 * lookupD weights p.1)).sum := by
      apply List.sum_le_sum
      intro p hp
      exact mul_le_mul_of_nonneg_right (hbounds p hp).1 (lookupD_nonneg weights p.1 hpos)
    have h2 : (scores.map (fun p => m * lookupD weights p.1)).sum = m := by
      rw [List.sum_map_mul_left, hWsum, mul_one]
    linarith
  obtain ⟨hrl, hrr⟩ := round2_bounds ((scores.map (fun p => p.2 * lookupD weights p.1)).sum)
  constructor
  · linarith
  · linarith

theorem claim_C6_witness :
    (30:ℚ) - 1/200 ≤ weighted_fusion [("a", 30), ("b", 70)] [("a", 1/2), ("b", 1/2)] true ∧
      weighted_fusion [("a", 30), ("b", 70)] [("a", 1/2), ("b", 1/2)] true ≤ 70 + 1/200 :=
  claim_C6_amended [("a", 30), ("b", 70)] [("a", 1/2), ("b", 1/2)] 30 70
    (by simp) (by simp) (by decide) (by decide)
    (by rintro p hp; simp at hp; rcases hp with rfl | rfl <;> norm_num)
    (by norm_num)
    (by rintro p hp; simp at hp; rcases hp with rfl | rfl <;> simp)
    (by rintro p hp; simp at hp; rcases hp with rfl | rfl <;> constructor <;> norm_num)

/-! ### Claim C1: invariants of the final response list -/

theorem filterMap_rec_ids_sublist (f : Rec → Option Rec)
    (hf : ∀ r r', f r = some r' → r'.activity_id = r.activity_id) (l : List Rec) :
    ((l.filterMap f).map Rec.activity_id).Sublist (l.map Rec.activity_id) := by
  induction l with
  | nil => exact List.nil_sublist _
  | cons r l ih =>
    rw [List.filterMap_cons, List.map_cons]
    cases hfr : f r with
    | none => exact ih.cons _
    | some r' =>
      rw [List.map_cons, hf r r' hfr]
      exact ih.cons₂ _

theorem filter_recommendations_ids_sublist (env : Env) (user_id : ℤ) (recs : List Rec)
    (ev er ee : Bool) :
    ((filter_recommendations env user_id recs ev er ee).map Rec.activity_id).Sublist
      (recs.map Rec.activity_id) := by
  unfold filter_recommendations
  by_cases h : recs = []
  · rw [if_pos h, h]
  · rw [if_neg h]
    apply filterMap_rec_ids_sublist
    intro r r' hfr
    by_cases hse : ee = true ∧ statusEnded env r.activity_id = true
    · rw [if_pos hse] at hfr
      cases hfr
    · rw [if_neg hse] at hfr
      simp only [] at hfr
      have hinj := Option.some.inj hfr
      split_ifs at hinj
      · rw [← hinj]
      · rw [← hinj]

theorem applyNoise_ids (u : ℕ → ℚ) :
    ∀ (i : ℕ) (l : List Rec),
      (applyNoise u i l).map Rec.activity_id = l.map Rec.activity_id := by
  intro i l
  induction l generalizing i with
  | nil => rfl
  | cons r l ih =>
    show _ :: (applyNoise u (i + 1) l).map Rec.activity_id = _
    rw [ih (i + 1)]
    rfl

theorem add_randomness_ids_perm (u : ℕ → ℚ) (l : List Rec) :
    ((add_randomness_to_scores u l).map Rec.activity_id).Perm (l.map Rec.activity_id) := by
  unfold add_randomness_to_scores
  by_cases h : l = []
  · rw [if_pos h]
  · rw [if_neg h]
    have hp := (sortByDesc_perm (fun r : Rec => r.recommendation_score)
      (applyNoise u 0 l)).map Rec.activity_id
    rwa [applyNoise_ids] at hp

theorem add_randomness_sorted (u : ℕ → ℚ) (l : List Rec) :
    (add_randomness_to_scores u l).Sorted
      (fun a b => b.recommendation_score ≤ a.recommendation_score) := by
  unfold add_randomness_to_scores
  by_cases h : l = []
  · rw [if_pos h, h]
    exact List.sorted_nil
  · rw [if_neg h]
    exact sortByDesc_sorted _ _

theorem map_map_congr {α β γ : Type} (g : α → β) (pr : β → γ) (f : α → γ)
    (hg : ∀ a, pr (g a) = f a) (l : List α) :
    (l.map g).map pr = l.map f := by
  rw [List.map_map]
  exact List.map_congr_left (fun a _ => hg a)

theorem synthesize_ids_nodup (items : List ScoredItem) (c : ScoreMap)
    (w : List (String × ℚ)) (count : ℕ)
    (hnd : (items.map (fun it => it.activity.id)).Nodup) :
    ((synthesize_scores items c w count).map Rec.activity_id).Nodup := by
  unfold synthesize_scores
  rw [List.map_take]
  apply List.Nodup.sublist (List.take_sublist _ _)
  apply (List.Perm.nodup_iff ((sortByDesc_perm _ _).map _)).mpr
  rw [map_map_congr _ Rec.activity_id (fun it => it.activity.id) (fun it => rfl)]
  exact hnd

theorem engine_ids_nodup (env : Env) (user_id : ℤ) (count : ℕ)
    (layer_weights : List (String × ℚ)) (th : ℚ) (cul : ℕ)
    (hnd : (env.activities.map Activity.id).Nodup) :
    ((recommend_activities env user_id count layer_weights th cul).map Rec.activity_id).Nodup := by
  unfold recommend_activities
  cases hu : env.users user_id with
  | none => exact List.nodup_nil
  | some user =>
    simp only []
    by_cases hl1 : layer_content_filter env user_id user th = []
    · rw [if_pos hl1]
      exact List.nodup_nil
    · rw [if_neg hl1]
      have h1 : ((layer_content_filter env user_id user th).map
          (fun it => it.activity.id)).Nodup := by
        rw [layer_content_filter_eq,
          map_map_congr _ (fun it : ScoredItem => it.activity.id) Activity.id (fun a => rfl)]
        exact List.Nodup.sublist ((List.filter_sublist _).map Activity.id) hnd
      have h2 : ((layer_hotness_ranking env (layer_content_filter env user_id user th)).map
          (fun it => it.activity.id)).Nodup := by
        unfold layer_hotness_ranking
        apply (List.Perm.nodup_iff ((sortByDesc_perm _ _).map _)).mpr
        rw [map_map_congr _ (fun it : ScoredItem => it.activity.id)
          (fun it => it.activity.id) (fun it => rfl)]
        exact h1
      have h3 : ((layer_freshness_decay env (layer_hotness_ranking env
          (layer_content_filter env user_id user th))).map
          (fun it => it.activity.id)).Nodup := by
        unfold layer_freshness_decay
        rw [map_map_congr _ (fun it : ScoredItem => it.activity.id)
          (fun it => it.activity.id) (fun it => rfl)]
        exact h2
      exact synthesize_ids_nodup _ _ _ _ h3

/-- Claim C1: the final recommendation response never contains two entries with
the same `activity_id`, is sorted descending by `recommendation_score` after
noise injection, holds at most `count` items, and the post-processing
truncation happens only after the penalty adjustment, the noise injection and
the final re-sort. -/
theorem claim_C1 (env : Env) (user_id : ℤ) (count : ℕ) (ev er ee : Bool) (u : ℕ → ℚ)
    (hnd : (env.activities.map Activity.id).Nodup) :
    ((router_response env user_id count ev er ee u).map Rec.activity_id).Nodup ∧
    (router_response env user_id count ev er ee u).Sorted
      (fun a b => b.recommendation_score ≤ a.recommendation_score) ∧
    (router_response env user_id count ev er ee u).length ≤ count ∧
    router_for_me env user_id count ev er ee u =
      (add_randomness_to_scores u (if ev || er || ee then
          sortByDesc (fun r => r.recommendation_score)
            (filter_recommendations env user_id
              (recommend_activities env user_id count defaultLayerWeights (1/10) 5) ev er ee)
        else recommend_activities env user_id count defaultLayerWeights (1/10) 5)).take count := by
  have hengine := engine_ids_nodup env user_id count defaultLayerWeights (1/10) 5 hnd
  have hfiltered : ((if ev || er || ee then
      sortByDesc (fun r => r.recommendation_score)
        (filter_recommendations env user_id
          (recommend_activities env user_id count defaultLayerWeights (1/10) 5) ev er ee)
    else recommend_activities env user_id count defaultLayerWeights (1/10) 5).map
      Rec.activity_id).Nodup := by
    split_ifs
    · apply (List.Perm.nodup_iff ((sortByDesc_perm _ _).map _)).mpr
      exact List.Nodup.sublist (filter_recommendations_ids_sublist env user_id _ ev er ee)
        hengine
    · exact hengine
  have hrfm : ((router_for_me env user_id count ev er ee u).map Rec.activity_id).Nodup := by
    unfold router_for_me router_postprocess
    simp only []
    rw [List.map_take]
    apply List.Nodup.sublist (List.take_sublist _ _)
    exact (List.Perm.nodup_iff (add_randomness_ids_perm u _)).mpr hfiltered
  have hresp_sub : (router_response env user_id count ev er ee u).Sublist
      (router_for_me env user_id count ev er ee u) := List.filter_sublist _
  refine ⟨?_, ?_, ?_, rfl⟩
  · exact List.Nodup.sublist (hresp_sub.map Rec.activity_id) hrfm
  · apply List.Pairwise.sublist hresp_sub
    show (router_for_me env user_id count ev er ee u).Sorted _
    unfold router_for_me router_postprocess
    simp only []
    exact List.Pairwise.sublist (List.take_sublist _ _) (add_randomness_sorted u _)
  · calc (router_response env user_id count ev er ee u).length
        ≤ (router_for_me env user_id count ev er ee u).length := hresp_sub.length_le
      _ ≤ count := by
          unfold router_for_me router_postprocess
          simp only []
          rw [List.length_take]
          exact min_le_left _ _

/-- Environment for the C1 witness: one user, one recommendable activity. -/
def actW : Activity :=
  { id := 1, title := "w", description := "", status := "published", start_time := 0,
    tags := [], targeted_people := [], activity_classes := [], max_participants := 10,
    current_participants := 0, views_count := 0 }

def envW : Env :=
  { users := fun _ => some ⟨"", []⟩, viewedLogs := fun _ => [], registeredLogs := fun _ => [],
    activities := [actW], lookupActivity := fun i => if i = 1 then some actW else none,
    stats := fun _ => ⟨0, 0, 0⟩, allUserIds := [1], freshnessOf := fun _ => 0, now := 0 }

theorem claim_C1_witness :
    ((envW.activities.map Activity.id).Nodup) ∧
      ((router_response envW 1 5 false false false (fun _ => 0)).map Rec.activity_id).Nodup ∧
      (router_response envW 1 5 false false false (fun _ => 0)).Sorted
        (fun a b => b.recommendation_score ≤ a.recommendation_score) ∧
      (router_response envW 1 5 false false false (fun _ => 0)).length ≤ 5 :=
  ⟨by simp [envW], (claim_C1 envW 1 5 false false false (fun _ => 0) (by simp [envW])).1,
    (claim_C1 envW 1 5 false false false (fun _ => 0) (by simp [envW])).2.1,
    (claim_C1 envW 1 5 false false false (fun _ => 0) (by simp [envW])).2.2.1⟩

theorem claim_C4_witness :
    rec0 ∈ [rec0] ∧ ¬((false = true) ∧ statusEnded envNone rec0.activity_id = true) ∧
      { rec0 with recommendation_score :=
          rec0.recommendation_score * penaltyFactor envNone 1 false false rec0.activity_id } ∈
        filter_recommendations envNone 1 [rec0] false false false :=
  ⟨by simp, by simp,
    (claim_C4 envNone 1 [rec0] false false false rec0 (by simp) (by simp)).1⟩

/-! ### Claim C7: cosine similarity (`calculate_cosine_similarity`)

`math.sqrt` is genuinely real-valued, so this part of `ScoringUtils` is
embedded over `ℝ`; the `ValueError` on mismatched lengths is the `none`
result. -/

open scoped Classical in
/-- Python's `round` to an integer on a real argument (round half to even). -/
noncomputable def roundHalfEvenR (x : ℝ) : ℤ :=
  if x - ⌊x⌋ < 1/2 then ⌊x⌋
  else if 1/2 < x - ⌊x⌋ then ⌊x⌋ + 1
  else if ⌊x⌋ % 2 = 0 then ⌊x⌋ else ⌊x⌋ + 1

/-- Python's `round(x, 3)` on a real argument. -/
noncomputable def round3R (x : ℝ) : ℝ := (roundHalfEvenR (x * 1000) : ℝ) / 1000

/-- `ScoringUtils.calculate_cosine_similarity`: `none` on a dimension
mismatch (`ValueError`), 0 on empty vectors or zero magnitude, otherwise the
cosine rounded to 3 decimals. -/
noncomputable def calculate_cosine_similarity (vector_a vector_b : List ℝ) : Option ℝ :=
  if vector_a.length ≠ vector_b.length then none
  else if vector_a = [] ∨ vector_b = [] then some 0
  else
    let dot_product := (List.zipWith (fun a b => a * b) vector_a vector_b).sum
    let magnitude_a := Real.sqrt ((vector_a.map (fun a => a ^ 2)).sum)
    let magnitude_b := Real.sqrt ((vector_b.map (fun b => b ^ 2)).sum)
    if magnitude_a = 0 ∨ magnitude_b = 0 then some 0
    else some (round3R (dot_product / (magnitude_a * magnitude_b)))

theorem roundHalfEvenR_bounds (x : ℝ) :
    x - 1/2 ≤ (roundHalfEvenR x : ℝ) ∧ (roundHalfEvenR x : ℝ) ≤ x + 1/2 := by
  have h0 : (⌊x⌋ : ℝ) ≤ x := Int.floor_le x
  have h1 : x < ⌊x⌋ + 1 := Int.lt_floor_add_one x
  unfold roundHalfEvenR
  split_ifs with hf hg he <;>
    constructor <;> push_cast <;> linarith

theorem roundHalfEvenR_intCast (n : ℤ) : roundHalfEvenR (n : ℝ) = n := by
  unfold roundHalfEvenR
  rw [Int.floor_intCast, if_pos (by norm_num)]

theorem sum_sq_nonneg (l : List ℝ) : 0 ≤ (l.map (fun a => a ^ 2)).sum := by
  induction l with
  | nil => simp
  | cons x l ih =>
    rw [List.map_cons, List.sum_cons]
    exact add_nonneg (sq_nonneg x) ih

/-- Cauchy-Schwarz for list dot products. -/
theorem list_inner_le (a b : List ℝ) :
    (List.zipWith (fun x y => x * y) a b).sum ≤
      Real.sqrt ((a.map (fun x => x ^ 2)).sum) * Real.sqrt ((b.map (fun x => x ^ 2)).sum) := by
  induction a generalizing b with
  | nil =>
    simp only [List.zipWith_nil_left, List.sum_nil]
    exact mul_nonneg (Real.sqrt_nonneg _) (Real.sqrt_nonneg _)
  | cons x a ih =>
    cases b with
    | nil =>
      simp only [List.zipWith_nil_right, List.sum_nil]
      exact mul_nonneg (Real.sqrt_nonneg _) (Real.sqrt_nonneg _)
    | cons y b =>
      rw [List.zipWith_cons_cons, List.sum_cons, List.map_cons, List.sum_cons,
        List.map_cons, List.sum_cons]
      have hA := sum_sq_nonneg a
      have hB := sum_sq_nonneg b
      have hS := ih b
      have hxy : x * y ≤ |x| * |y| := by
        rw [← abs_mul]
        exact le_abs_self _
      have hkey : |x| * |y| + Real.sqrt ((a.map (fun x => x ^ 2)).sum) *
          Real.sqrt ((b.map (fun x => x ^ 2)).sum) ≤
          Real.sqrt ((x ^ 2 + (a.map (fun x => x ^ 2)).sum) *
            (y ^ 2 + (b.map (fun x => x ^ 2)).sum)) := by
        apply Real.le_sqrt_of_sq_le
        have hamg := two_mul_le_add_sq (|x| * Real.sqrt ((b.map (fun x => x ^ 2)).sum))
          (|y| * Real.sqrt ((a.map (fun x => x ^ 2)).sum))
        have hsqA := Real.sq_sqrt hA
        have hsqB := Real.sq_sqrt hB
        have hax := sq_abs x
        have hay := sq_abs y
        have hnx := abs_nonneg x
        have hny := abs_nonneg y
        have hsA := Real.sqrt_nonneg ((a.map (fun x => x ^ 2)).sum)
        have hsB := Real.sqrt_nonneg ((b.map (fun x => x ^ 2)).sum)
        nlinarith [sq_nonneg (|x| * Real.sqrt ((b.map (fun x => x ^ 2)).sum) -
          |y| * Real.sqrt ((a.map (fun x => x ^ 2)).sum))]
      rw [Real.sqrt_mul (by positivity)] at hkey
      linarith

theorem zipWith_neg_sum (a b : List ℝ) :
    (List.zipWith (fun x y => -x * y) a b).sum = -(List.zipWith (fun x y => x * y) a b).sum := by
  induction a generalizing b with
  | nil => simp
  | cons x a ih =>
    cases b with
    | nil => simp
    | cons y b =>
      rw [List.zipWith_cons_cons, List.sum_cons, List.zipWith_cons_cons, List.sum_cons, ih b]
      ring

theorem list_inner_ge (a b : List ℝ) :
    -(Real.sqrt ((a.map (fun x => x ^ 2)).sum) * Real.sqrt ((b.map (fun x => x ^ 2)).sum)) ≤
      (List.zipWith (fun x y => x * y) a b).sum := by
  have h := list_inner_le (a.map (fun x => -x)) b
  rw [List.zipWith_map_left] at h
  have hz : (List.zipWith (fun x y => (fun v : ℝ => -v) x * y) a b).sum =
      -(List.zipWith (fun x y => x * y) a b).sum := zipWith_neg_sum a b
  rw [hz] at h
  have hsq : (a.map (fun x => -x)).map (fun x => x ^ 2) = a.map (fun x => x ^ 2) := by
    rw [List.map_map]
    exact List.map_congr_left (fun v _ => by
      show (-v) ^ 2 = v ^ 2
      ring)
  rw [hsq] at h
  linarith

/-- `round3R` maps `[-1, 1]` into itself. -/
theorem round3R_mem (x : ℝ) (h1 : -1 ≤ x) (h2 : x ≤ 1) :
    -1 ≤ round3R x ∧ round3R x ≤ 1 := by
  obtain ⟨hl, hr⟩ := roundHalfEvenR_bounds (x * 1000)
  have hub : roundHalfEvenR (x * 1000) ≤ 1000 := by
    have hc : ((roundHalfEvenR (x * 1000) : ℤ) : ℝ) < 1001 := by linarith
    have : (roundHalfEvenR (x * 1000) : ℤ) < 1001 := by exact_mod_cast hc
    linarith
  have hlb : (-1000 : ℤ) ≤ roundHalfEvenR (x * 1000) := by
    have hc : (-1001 : ℝ) < ((roundHalfEvenR (x * 1000) : ℤ) : ℝ) := by linarith
    have : (-1001 : ℤ) < roundHalfEvenR (x * 1000) := by exact_mod_cast hc
    linarith
  have hubR : ((roundHalfEvenR (x * 1000) : ℤ) : ℝ) ≤ 1000 := by exact_mod_cast hub
  have hlbR : (-1000 : ℝ) ≤ ((roundHalfEvenR (x * 1000) : ℤ) : ℝ) := by exact_mod_cast hlb
  unfold round3R
  constructor
  · linarith
  · linarith

/-- Claim C7, counterexample: cosine similarity of `[1]` and `[-1]` is `-1`,
outside the claimed range `[0, 1]`. -/
theorem claim_C7_counterexample :
    calculate_cosine_similarity [1] [-1] = some (-1) ∧ ¬ ((0:ℝ) ≤ -1) := by
  constructor
  · unfold calculate_cosine_similarity
    rw [if_neg (by simp), if_neg (by simp)]
    simp only []
    rw [if_neg (by norm_num [Real.sqrt_one])]
    rw [show (List.zipWith (fun a b => a * b) [(1:ℝ)] [-1]).sum /
        (Real.sqrt (((([1]:List ℝ)).map (fun a => a ^ 2)).sum) *
          Real.sqrt (((([-1]:List ℝ)).map (fun b => b ^ 2)).sum)) = -1 from by
      norm_num [Real.sqrt_one]]
    rw [show round3R (-1) = -1 from by
      unfold round3R
      rw [show ((-1:ℝ) * 1000) = ((-1000 : ℤ) : ℝ) from by norm_num, roundHalfEvenR_intCast]
      norm_num]
  · norm_num

/-- Claim C7, amended: for every pair of equal-length real vectors the cosine
similarity is defined and lies in `[-1, 1]` (not `[0, 1]`), and it is 0
whenever either vector has zero magnitude. -/
theorem claim_C7 (a b : List ℝ) (h : a.length = b.length) :
    (∃ x, calculate_cosine_similarity a b = some x ∧ -1 ≤ x ∧ x ≤ 1) ∧
    ((Real.sqrt ((a.map (fun v => v ^ 2)).sum) = 0 ∨
        Real.sqrt ((b.map (fun v => v ^ 2)).sum) = 0) →
      calculate_cosine_similarity a b = some 0) := by
  unfold calculate_cosine_similarity
  rw [if_neg (by simp [h])]
  by_cases hempty : a = [] ∨ b = []
  · rw [if_pos hempty]
    exact ⟨⟨0, rfl, by norm_num, by norm_num⟩, fun _ => rfl⟩
  · rw [if_neg hempty]
    simp only []
    by_cases hmag : Real.sqrt ((a.map (fun a => a ^ 2)).sum) = 0 ∨
        Real.sqrt ((b.map (fun b => b ^ 2)).sum) = 0
    · rw [if_pos hmag]
      exact ⟨⟨0, rfl, by norm_num, by norm_num⟩, fun _ => rfl⟩
    · rw [if_neg hmag]
      push_neg at hmag
      constructor
      · have hpa : 0 < Real.sqrt ((a.map (fun a => a ^ 2)).sum) :=
          lt_of_le_of_ne (Real.sqrt_nonneg _) (Ne.symm hmag.1)
        have hpb : 0 < Real.sqrt ((b.map (fun b => b ^ 2)).sum) :=
          lt_of_le_of_ne (Real.sqrt_nonneg _) (Ne.symm hmag.2)
        have hprod : 0 < Real.sqrt ((a.map (fun a => a ^ 2)).sum) *
            Real.sqrt ((b.map (fun b => b ^ 2)).sum) := mul_pos hpa hpb
        have hle := list_inner_le a b
        have hge := list_inner_ge a b
        have hq1 : (List.zipWith (fun x y => x * y) a b).sum /
            (Real.sqrt ((a.map (fun a => a ^ 2)).sum) *
              Real.sqrt ((b.map (fun b => b ^ 2)).sum)) ≤ 1 :=
          (div_le_one hprod).mpr hle
        have hq2 : -1 ≤ (List.zipWith (fun x y => x * y) a b).sum /
            (Real.sqrt ((a.map (fun a => a ^ 2)).sum) *
              Real.sqrt ((b.map (fun b => b ^ 2)).sum)) := by
          rw [le_div_iff₀ hprod]
          linarith
        exact ⟨_, rfl, (round3R_mem _ hq2 hq1).1, (round3R_mem _ hq2 hq1).2⟩
      · intro hc
        rcases hc with hc | hc
        · exact absurd hc hmag.1
        · exact absurd hc hmag.2

theorem claim_C7_witness :
    ([(1:ℝ)] : List ℝ).length = ([(1:ℝ)] : List ℝ).length ∧
      ((∃ x, calculate_cosine_similarity [(1:ℝ)] [(1:ℝ)] = some x ∧ -1 ≤ x ∧ x ≤ 1) ∧
        ((Real.sqrt ((([(1:ℝ)] : List ℝ).map (fun v => v ^ 2)).sum) = 0 ∨
            Real.sqrt ((([(1:ℝ)] : List ℝ).map (fun v => v ^ 2)).sum) = 0) →
          calculate_cosine_similarity [(1:ℝ)] [(1:ℝ)] = some 0)) :=
  ⟨rfl, claim_C7 [(1:ℝ)] [(1:ℝ)] rfl⟩

end Meethub
